import Mathlib

/-
Shallow embedding of cricket_analytics_app.py.

A pandas DataFrame is modelled as a Table: a list of column names and a
list of rows, each row a list of cells aligned with the column list.
A cell is missing (NaN), a rational number (int64/float64 values), or a
string (object dtype values as produced by CSV reading).
-/

deriving instance DecidableEq for Except

namespace CricketApp

/-- Rational addition through mkRat (kernel-friendly form of the same
rational-number addition). -/
def ratAdd (a b : ℚ) : ℚ := mkRat (a.num * b.den + b.num * a.den) (a.den * b.den)

/-- Division of a rational by a positive natural count. -/
def ratDivNat (a : ℚ) (n : Nat) : ℚ := mkRat a.num (a.den * n)

def ratMax (a b : ℚ) : ℚ := if a ≤ b then b else a

def ratMin (a b : ℚ) : ℚ := if a ≤ b then a else b

/-- Code-point comparison of character lists, the order Python string
comparison uses. -/
def strLtB : List Char → List Char → Bool
  | [], [] => false
  | [], _ :: _ => true
  | _ :: _, [] => false
  | a :: as, b :: bs =>
    if a.toNat < b.toNat then true
    else if b.toNat < a.toNat then false
    else strLtB as bs

def strLeB (s t : String) : Bool := !(strLtB t.data s.data)

inductive Cell where
  | missing
  | num (q : ℚ)
  | str (s : String)
deriving DecidableEq, Repr

structure Table where
  cols : List String
  rows : List (List Cell)
deriving DecidableEq, Repr

/-- Index of a column name in a column list (first occurrence), as pandas
column lookup does. -/
def idxOf? (c : String) : List String → Option Nat
  | [] => none
  | x :: xs => if x = c then some 0 else (idxOf? c xs).map (· + 1)

/-- The cell of a row under column name c; Cell.missing when the column is
absent (callers guard column presence before use, as the app does). -/
def cellAt (cols : List String) (row : List Cell) (c : String) : Cell :=
  match idxOf? c cols with
  | some i => row.getD i Cell.missing
  | none => Cell.missing

/-- All cells of column c, top to bottom. -/
def colCells (t : Table) (c : String) : List Cell :=
  t.rows.map (fun r => cellAt t.cols r c)

/-! ## Loader (load_data in the source)  -/

/-- The fixed set of columns the loader coerces to numeric. -/
def numeric_cols : List String :=
  ["Matches_Played", "Runs_Scored", "Batting_Average",
   "Batting_Strike_Rate", "Centuries", "Half_Centuries",
   "Wickets_Taken", "Bowling_Average", "Economy_Rate"]

/-- pd.to_numeric with errors=coerce on one cell: numbers pass through,
numeric text parses, anything else becomes missing (NaN). -/
def toNumericCell : Cell → Cell
  | Cell.num q => Cell.num q
  | Cell.str s => match s.toInt? with
    | some n => Cell.num n
    | none => Cell.missing
  | Cell.missing => Cell.missing

/-- Apply a cell transformation to every cell of column c. -/
def coerceColumn (cols : List String) (c : String) (rows : List (List Cell)) :
    List (List Cell) :=
  match idxOf? c cols with
  | some i => rows.map (fun r => r.set i (toNumericCell (r.getD i Cell.missing)))
  | none => rows

/-- load_data: coerce the fixed numeric columns, then coerce Year and drop
rows whose Year is missing (dropna on subset Year). -/
def load_data (t : Table) : Table :=
  let rows1 := numeric_cols.foldl
    (fun rs c => if c ∈ t.cols then coerceColumn t.cols c rs else rs) t.rows
  if "Year" ∈ t.cols then
    let rows2 := coerceColumn t.cols "Year" rows1
    let rows3 := rows2.filter (fun r =>
      match cellAt t.cols r "Year" with
      | Cell.num _ => true
      | _ => false)
    Table.mk t.cols rows3
  else
    Table.mk t.cols rows1

/-! ## Filter Engine (filtered_df in the source) -/

/-- df.Year.between(lo, hi): true when the Year cell is a number in the
inclusive range; false on a missing or textual cell (NaN compares false). -/
def yearOK (cols : List String) (row : List Cell) (lo hi : ℚ) : Bool :=
  match cellAt cols row "Year" with
  | Cell.num q => decide (lo ≤ q) && decide (q ≤ hi)
  | _ => false

/-- df.Player_Name.isin(selected): membership of the string cell in the
selected list; false on a missing cell. -/
def playerIn (cols : List String) (row : List Cell) (sel : List String) : Bool :=
  match cellAt cols row "Player_Name" with
  | Cell.str s => sel.contains s
  | _ => false

/-- The filtering step. When the Year column exists rows must satisfy both
the temporal range and the entity membership; otherwise only membership.
Indexing df with the column Player_Name raises KeyError when that column is
absent, modelled as an error value. -/
def filtered_df (t : Table) (lo hi : ℚ) (sel : List String) :
    Except String Table :=
  if "Player_Name" ∈ t.cols then
    if "Year" ∈ t.cols then
      Except.ok (Table.mk t.cols
        (t.rows.filter (fun r => yearOK t.cols r lo hi && playerIn t.cols r sel)))
    else
      Except.ok (Table.mk t.cols (t.rows.filter (fun r => playerIn t.cols r sel)))
  else
    Except.error "KeyError: Player_Name"

/-- Row count of a filtering result (0 for the error case). -/
def rowCount : Except String Table → Nat
  | Except.ok t => t.rows.length
  | Except.error _ => 0

/-! ## Metric Catalog (available_metrics in the source) -/

/-- Dtype inference at the value level: a column holds an int64/float64
dtype exactly when no cell of it is a string (CSV reading gives a numeric
dtype to a column iff every non-missing entry is numeric). -/
def isNumericDtypeCell : Cell → Bool
  | Cell.str _ => false
  | _ => true

def numericDtype (cells : List Cell) : Bool :=
  cells.all isNumericDtypeCell

/-- Columns whose dtype is numeric, in table column order. -/
def available_metrics (t : Table) : List String :=
  t.cols.filter (fun c => numericDtype (colCells t c))

/-! ## Entity lists and grouping -/

/-- String values of the Player_Name column, top to bottom; missing cells
carry no entity identifier. -/
def playerNames (t : Table) : List String :=
  (colCells t "Player_Name").filterMap (fun cl =>
    match cl with
    | Cell.str s => some s
    | _ => none)

/-- Insertion into a sorted list of strings. -/
def insertSorted (s : String) : List String → List String
  | [] => [s]
  | x :: xs => if strLeB s x then s :: x :: xs else x :: insertSorted s xs

/-- Insertion sort over strings (Python sorted on the unique entity list). -/
def sortStrings (l : List String) : List String :=
  l.foldr insertSorted []

/-- sorted(df.Player_Name.unique()): sorted distinct entity identifiers. -/
def all_players (t : Table) : List String :=
  sortStrings (playerNames t).dedup

/-- groupby group keys: distinct Player_Name values in sorted order
(pandas groupby sorts keys and drops missing keys). -/
def groupKeys (t : Table) : List String :=
  sortStrings (playerNames t).dedup

/-- The numeric values of column c over the rows of the group keyed k,
missing cells skipped (pandas reductions skip NaN). -/
def groupVals (t : Table) (k : String) (c : String) : List ℚ :=
  (t.rows.filter (fun r => cellAt t.cols r "Player_Name" == Cell.str k)).filterMap
    (fun r => match cellAt t.cols r c with
      | Cell.num q => some q
      | _ => none)

/-! ## Aggregator (comparison_df in the source) -/

inductive Method where
  | mean
  | sum
  | max
  | min
deriving DecidableEq, Repr

/-- One pandas groupby reduction over the non-missing values of a group:
mean/max/min of an empty value list is NaN, while sum of an empty value
list is 0 (pandas sum with its default min_count). -/
def reduceVals (m : Method) (vs : List ℚ) : Option ℚ :=
  match m with
  | Method.sum => some (vs.foldl ratAdd 0)
  | Method.mean =>
    if vs.isEmpty then none
    else some (ratDivNat (vs.foldl ratAdd 0) vs.length)
  | Method.max =>
    vs.foldl (fun acc v =>
      match acc with
      | none => some v
      | some a => some (ratMax a v)) none
  | Method.min =>
    vs.foldl (fun acc v =>
      match acc with
      | none => some v
      | some a => some (ratMin a v)) none

/-- filtered_df.groupby(Player_Name)[metrics].agg(method).reset_index():
one output row per distinct entity, in sorted key order, holding the
reduction of each requested metric over that entity's rows. -/
def comparison_df (t : Table) (metrics : List String) (m : Method) :
    List (String × List (Option ℚ)) :=
  (groupKeys t).map (fun k =>
    (k, metrics.map (fun c => reduceVals m (groupVals t k c))))

/-! ## Chart Dispatcher branches -/

inductive Outcome where
  | chartAgg (kind : String) (agg : List (String × List (Option ℚ)))
  | chartTable (kind : String) (t : Table)
  | warn (msg : String)
  | nothing
deriving DecidableEq, Repr

/-- Projection of a table to a subset of its columns (the dimensions
handed to the plotting call). -/
def projectTable (t : Table) (cs : List String) : Table :=
  Table.mk cs (t.rows.map (fun r => cs.map (fun c => cellAt t.cols r c)))

/-- Scatter Plot branch: requires a secondary metric different from None,
otherwise a visible warning. -/
def scatterBranch (filtered : Table) (secondary : String) : Outcome :=
  if secondary ≠ "None" then Outcome.chartTable "scatter" filtered
  else Outcome.warn "Please select a secondary metric for scatter plot"

/-- Heatmap branch: guarded by len(selected_players) > 1 and a non-empty
metric choice, with no else arm on either guard. -/
def heatmapBranch (filtered : Table) (selected : List String)
    (metricsChosen : List String) : Outcome :=
  if selected.length > 1 then
    if metricsChosen ≠ [] then
      Outcome.chartAgg "heatmap" (comparison_df filtered metricsChosen Method.mean)
    else Outcome.nothing
  else Outcome.nothing

/-- Parallel Coordinates branch: guarded by len(selected_players) > 1 and a
non-empty metric choice, with no else arm on either guard. -/
def parallelBranch (filtered : Table) (selected : List String)
    (metricsChosen : List String) : Outcome :=
  if selected.length > 1 then
    if metricsChosen ≠ [] then
      Outcome.chartTable "parallel_coordinates" (projectTable filtered metricsChosen)
    else Outcome.nothing
  else Outcome.nothing

/-- The radar trace loop: for each selected player, take the aggregate row
matching it and read its value vector with values[0]; on a player with no
aggregate row the positional index 0 is out of bounds and the whole figure
construction fails with an IndexError. -/
def radarTraceLoop (radar : List (String × List (Option ℚ))) :
    List String → Except String (List (String × List (Option ℚ)))
  | [] => Except.ok []
  | p :: ps =>
    match radar.find? (fun row => row.1 == p) with
    | none => Except.error "IndexError: index 0 is out of bounds"
    | some row =>
      match radarTraceLoop radar ps with
      | Except.ok ts => Except.ok ((p, row.2) :: ts)
      | Except.error e => Except.error e

/-! ## Temporal bounds and the filter step as a state transition -/

/-- Numeric values of the Year column. -/
def yearVals (t : Table) : List ℚ :=
  (colCells t "Year").filterMap (fun cl =>
    match cl with
    | Cell.num q => some q
    | _ => none)

/-- Observed minimum of the Year column (slider lower bound). -/
def min_year (t : Table) : ℚ :=
  match yearVals t with
  | [] => 0
  | v :: vs => vs.foldl ratMin v

/-- Observed maximum of the Year column (slider upper bound). -/
def max_year (t : Table) : ℚ :=
  match yearVals t with
  | [] => 0
  | v :: vs => vs.foldl ratMax v

/-- The pipeline state around the filtering step: the loaded table and the
binding produced for the filtered table. -/
structure AppState where
  df : Table
  filtered : Except String Table
deriving Repr

/-- Executing the filtering statement: binds the filtered table, leaving
the loaded table binding as it was. -/
def applyFilterStep (s : AppState) (lo hi : ℚ) (sel : List String) : AppState :=
  AppState.mk s.df (filtered_df s.df lo hi sel)

/-- Rows of a filtering result (none for the error case). -/
def filteredRows : Except String Table → List (List Cell)
  | Except.ok t => t.rows
  | Except.error _ => []

/-- Whether a cell is a number. -/
def isNumCell : Cell → Bool
  | Cell.num _ => true
  | _ => false

/-- Whether a cell is a string. -/
def isStrCell : Cell → Bool
  | Cell.str _ => true
  | _ => false

/-! ## Concrete tables used in the theorems below -/

/-- Entities A and B with metric M holding A:[10,20] and B:[5]. -/
def tAgg : Table := Table.mk ["Player_Name", "M"]
  [[Cell.str "A", Cell.num 10], [Cell.str "A", Cell.num 20], [Cell.str "B", Cell.num 5]]

/-- A single entity whose metric M is entirely missing. -/
def tAllMissing : Table := Table.mk ["Player_Name", "M"]
  [[Cell.str "A", Cell.missing]]

/-- Two entities with one row each in different years. -/
def tTwoYears : Table := Table.mk ["Player_Name", "Year", "Runs_Scored"]
  [[Cell.str "A", Cell.num 2021, Cell.num 100],
   [Cell.str "B", Cell.num 2020, Cell.num 80]]

/-- The result of filtering tTwoYears to the year 2020 alone. -/
def tTwoYearsF : Table := Table.mk ["Player_Name", "Year", "Runs_Scored"]
  [[Cell.str "B", Cell.num 2020, Cell.num 80]]

/-- A filtered table with a single selected entity. -/
def tOnePlayer : Table := Table.mk ["Player_Name", "M"]
  [[Cell.str "A", Cell.num 1]]

/-- A table without the Player_Name column. -/
def tNoPlayerCol : Table := Table.mk ["Name", "M"]
  [[Cell.str "A", Cell.num 1]]

/-- A table with entities, years and a numeric metric plus a textual column. -/
def tMixed : Table := Table.mk ["Player_Name", "Year", "M", "Team"]
  [[Cell.str "A", Cell.num 2020, Cell.num 1, Cell.str "X"],
   [Cell.str "B", Cell.num 2021, Cell.num 2, Cell.str "Y"]]

/-- A table with zero rows. -/
def tNoRows : Table := Table.mk ["Player_Name", "M"] []

/-! ## Helper lemmas -/

theorem mem_insertSorted (a s : String) (l : List String) :
    a ∈ insertSorted s l ↔ a = s ∨ a ∈ l := by
  induction l with
  | nil => simp [insertSorted]
  | cons x xs ih =>
    simp only [insertSorted]
    cases hsx : strLeB s x
    · simp only [Bool.false_eq_true, if_false, List.mem_cons, ih]
      tauto
    · simp only [if_true, List.mem_cons]

theorem mem_sortStrings (a : String) (l : List String) :
    a ∈ sortStrings l ↔ a ∈ l := by
  induction l with
  | nil => simp [sortStrings]
  | cons x xs ih =>
    show a ∈ insertSorted x (sortStrings xs) ↔ _
    rw [mem_insertSorted, ih]
    simp [List.mem_cons]

theorem length_filter_mono {α : Type} (p q : α → Bool) (l : List α)
    (h : ∀ a ∈ l, p a = true → q a = true) :
    (l.filter p).length ≤ (l.filter q).length := by
  induction l with
  | nil => simp
  | cons x xs ih =>
    have ih2 := ih (fun a ha hp => h a (List.mem_cons_of_mem _ ha) hp)
    simp only [List.filter]
    cases hp : p x <;> cases hq : q x
    · exact ih2
    · exact Nat.le_succ_of_le ih2
    · exact absurd (h x (List.mem_cons_self _ _) hp) (by simp [hq])
    · exact Nat.succ_le_succ ih2

theorem ratMin_le_left (a b : ℚ) : ratMin a b ≤ a := by
  unfold ratMin
  split
  · exact le_refl a
  · exact le_of_not_le (by assumption)

theorem ratMin_le_right (a b : ℚ) : ratMin a b ≤ b := by
  unfold ratMin
  split
  · assumption
  · exact le_refl b

theorem le_ratMax_left (a b : ℚ) : a ≤ ratMax a b := by
  unfold ratMax
  split
  · assumption
  · exact le_refl a

theorem le_ratMax_right (a b : ℚ) : b ≤ ratMax a b := by
  unfold ratMax
  split
  · exact le_refl b
  · exact le_of_not_le (by assumption)

theorem foldl_ratMin_le_init (l : List ℚ) (a : ℚ) : l.foldl ratMin a ≤ a := by
  induction l generalizing a with
  | nil => exact le_refl a
  | cons v vs ih =>
    exact le_trans (ih (ratMin a v)) (ratMin_le_left a v)

theorem foldl_ratMin_le (l : List ℚ) (a q : ℚ) (h : q ∈ l) :
    l.foldl ratMin a ≤ q := by
  induction l generalizing a with
  | nil => cases h
  | cons v vs ih =>
    rcases List.mem_cons.mp h with hq | hq
    · subst hq
      exact le_trans (foldl_ratMin_le_init vs (ratMin a q)) (ratMin_le_right a q)
    · exact ih (ratMin a v) hq

theorem le_foldl_ratMax_init (l : List ℚ) (a : ℚ) : a ≤ l.foldl ratMax a := by
  induction l generalizing a with
  | nil => exact le_refl a
  | cons v vs ih =>
    exact le_trans (le_ratMax_left a v) (ih (ratMax a v))

theorem le_foldl_ratMax (l : List ℚ) (a q : ℚ) (h : q ∈ l) :
    q ≤ l.foldl ratMax a := by
  induction l generalizing a with
  | nil => cases h
  | cons v vs ih =>
    rcases List.mem_cons.mp h with hq | hq
    · subst hq
      exact le_trans (le_ratMax_right a q) (le_foldl_ratMax_init vs (ratMax a q))
    · exact ih (ratMax a v) hq

theorem min_year_le (t : Table) (q : ℚ) (h : q ∈ yearVals t) :
    min_year t ≤ q := by
  unfold min_year
  cases hv : yearVals t with
  | nil => rw [hv] at h; cases h
  | cons v vs =>
    rw [hv] at h
    rcases List.mem_cons.mp h with hq | hq
    · subst hq; exact foldl_ratMin_le_init vs q
    · exact foldl_ratMin_le vs v q hq

theorem le_max_year (t : Table) (q : ℚ) (h : q ∈ yearVals t) :
    q ≤ max_year t := by
  unfold max_year
  cases hv : yearVals t with
  | nil => rw [hv] at h; cases h
  | cons v vs =>
    rw [hv] at h
    rcases List.mem_cons.mp h with hq | hq
    · subst hq; exact le_foldl_ratMax_init vs q
    · exact le_foldl_ratMax vs v q hq

/-! ## Claim theorems -/

/-- Claim C1: on a filtered table holding entities A and B and a metric M
with values A:[10,20] and B:[5], the Aggregator yields per method:
mean A:15 B:5, sum A:30 B:5, max A:20 B:5, min A:10 B:5. -/
theorem aggregation_values_concrete :
    comparison_df tAgg ["M"] Method.mean = [("A", [some 15]), ("B", [some 5])] ∧
    comparison_df tAgg ["M"] Method.sum = [("A", [some 30]), ("B", [some 5])] ∧
    comparison_df tAgg ["M"] Method.max = [("A", [some 20]), ("B", [some 5])] ∧
    comparison_df tAgg ["M"] Method.min = [("A", [some 10]), ("B", [some 5])] := by
  refine ⟨?_, ?_, ?_, ?_⟩ <;> decide

/-- Claim C2, counterexample: a group whose metric column holds zero
non-missing values gets the aggregate 0 under the sum reduction, not a
missing aggregate. -/
theorem sum_empty_group_zero :
    groupVals tAllMissing "A" "M" = [] ∧
    comparison_df tAllMissing ["M"] Method.sum = [("A", [some 0])] ∧
    comparison_df tAllMissing ["M"] Method.sum ≠ [("A", [none])] := by
  refine ⟨?_, ?_, ?_⟩ <;> decide

/-- Claim C2, amended: a group with zero non-missing values in a metric
column yields a missing aggregate under mean, max and min, and the
aggregate 0 under sum. -/
theorem empty_group_aggregate (t : Table) (metrics : List String)
    (k c : String) (i : Nat) (m : Method)
    (hk : k ∈ groupKeys t) (hc : metrics[i]? = some c)
    (hempty : groupVals t k c = []) :
    ∃ vs, (k, vs) ∈ comparison_df t metrics m ∧
      vs[i]? = some (match m with
        | Method.sum => some 0
        | _ => none) := by
  refine ⟨metrics.map (fun c2 => reduceVals m (groupVals t k c2)), ?_, ?_⟩
  · exact List.mem_map.mpr ⟨k, hk, rfl⟩
  · rw [List.getElem?_map, hc]
    simp only [Option.map]
    rw [hempty]
    cases m <;> rfl

theorem empty_group_aggregate_spot :
    ∃ vs, ("A", vs) ∈ comparison_df tAllMissing ["M"] Method.mean ∧
      vs[0]? = some none :=
  empty_group_aggregate tAllMissing ["M"] "A" "M" 0 Method.mean
    (by decide) (by decide) (by decide)

/-- Claim C7: the radar trace loop does not skip a selected entity that has
no aggregate row; it fails the whole figure with an IndexError.  Entity A is
selected but filtered out by the year range, and the loop errors instead of
producing the trace for B. -/
theorem radar_missing_entity_error :
    filtered_df tTwoYears 2020 2020 ["A", "B"] = Except.ok tTwoYearsF ∧
    radarTraceLoop (comparison_df tTwoYearsF ["Runs_Scored"] Method.mean)
      ["A", "B"] = Except.error "IndexError: index 0 is out of bounds" := by
  refine ⟨?_, ?_⟩ <;> decide

/-- Claim C8, counterexample: a heatmap request with exactly one selected
entity, and a parallel-coordinates request with one selected entity,
produce no chart request and also no Warning: the branches are silent. -/
theorem heatmap_single_entity_silent :
    heatmapBranch tOnePlayer ["A"] ["M"] = Outcome.nothing ∧
    parallelBranch tOnePlayer ["A"] ["M"] = Outcome.nothing := by
  refine ⟨?_, ?_⟩ <;> decide

/-- Claim C8, amended: with fewer than two selected entities the heatmap
and parallel-coordinates branches produce no chart request and no Warning,
and the parallel-coordinates branch is likewise silent on an empty metric
subset. -/
theorem dispatcher_silent_preconditions (t : Table) (sel ms : List String)
    (h : sel.length < 2) :
    heatmapBranch t sel ms = Outcome.nothing ∧
    parallelBranch t sel ms = Outcome.nothing ∧
    (∀ sel2 : List String, parallelBranch t sel2 [] = Outcome.nothing) := by
  have hgt : ¬ sel.length > 1 := by omega
  refine ⟨?_, ?_, ?_⟩
  · unfold heatmapBranch
    rw [if_neg hgt]
  · unfold parallelBranch
    rw [if_neg hgt]
  · intro sel2
    unfold parallelBranch
    by_cases h2 : sel2.length > 1
    · rw [if_pos h2, if_neg (by simp)]
    · rw [if_neg h2]

theorem dispatcher_silent_preconditions_spot :
    heatmapBranch tOnePlayer ["A"] ["M"] = Outcome.nothing ∧
    parallelBranch tOnePlayer ["A"] ["M"] = Outcome.nothing ∧
    (∀ sel2 : List String, parallelBranch tOnePlayer sel2 [] = Outcome.nothing) :=
  dispatcher_silent_preconditions tOnePlayer ["A"] ["M"] (by decide)

/-- Claim C9: executing the filtering statement leaves the loaded table
binding unchanged, and the filtered table it binds is a new value whose
rows form a sublist of the rows of the input. -/
theorem filter_never_mutates (s : AppState) (lo hi : ℚ) (sel : List String) :
    (applyFilterStep s lo hi sel).df = s.df ∧
    List.Sublist (filteredRows (applyFilterStep s lo hi sel).filtered)
      s.df.rows := by
  refine ⟨rfl, ?_⟩
  show List.Sublist (filteredRows (filtered_df s.df lo hi sel)) s.df.rows
  unfold filtered_df
  by_cases hP : "Player_Name" ∈ s.df.cols
  · rw [if_pos hP]
    by_cases hY : "Year" ∈ s.df.cols
    · rw [if_pos hY]
      exact List.filter_sublist _
    · rw [if_neg hY]
      exact List.filter_sublist _
  · rw [if_neg hP]
    exact List.nil_sublist _

/-- Claim C10: on a loaded table without a Player_Name column, the
filtering step raises a KeyError instead of returning a filtered table,
because the entity-membership predicate indexes that column
unconditionally. -/
theorem filter_missing_player_col (t : Table) (lo hi : ℚ) (sel : List String)
    (h : "Player_Name" ∉ t.cols) :
    filtered_df t lo hi sel = Except.error "KeyError: Player_Name" := by
  unfold filtered_df
  rw [if_neg h]

theorem filter_missing_player_col_spot :
    filtered_df tNoPlayerCol 0 1 ["A"] = Except.error "KeyError: Player_Name" :=
  filter_missing_player_col tNoPlayerCol 0 1 ["A"] (by decide)

/-- Claim C3: on a loaded table whose Year cells are all numeric (the
loader drops the others) and whose entity cells are all strings, filtering
with the full observed temporal range and the full distinct entity set
returns the table unchanged. -/
theorem filter_roundtrip (t : Table)
    (hP : "Player_Name" ∈ t.cols) (hY : "Year" ∈ t.cols)
    (hyear : ∀ r ∈ t.rows, isNumCell (cellAt t.cols r "Year") = true)
    (hplayer : ∀ r ∈ t.rows, isStrCell (cellAt t.cols r "Player_Name") = true) :
    filtered_df t (min_year t) (max_year t) (all_players t) = Except.ok t := by
  unfold filtered_df
  rw [if_pos hP, if_pos hY]
  have hfix : t.rows.filter
      (fun r => yearOK t.cols r (min_year t) (max_year t) &&
        playerIn t.cols r (all_players t)) = t.rows := by
    apply List.filter_eq_self.mpr
    intro r hr
    have hy := hyear r hr
    have hp := hplayer r hr
    rw [Bool.and_eq_true]
    constructor
    · unfold yearOK
      cases hcell : cellAt t.cols r "Year" with
      | num q =>
        have hqmem : q ∈ yearVals t := by
          unfold yearVals
          apply List.mem_filterMap.mpr
          refine ⟨cellAt t.cols r "Year", ?_, by rw [hcell]⟩
          exact List.mem_map.mpr ⟨r, hr, rfl⟩
        rw [Bool.and_eq_true, decide_eq_true_eq, decide_eq_true_eq]
        exact ⟨min_year_le t q hqmem, le_max_year t q hqmem⟩
      | missing => rw [hcell] at hy; simp [isNumCell] at hy
      | str s => rw [hcell] at hy; simp [isNumCell] at hy
    · unfold playerIn
      cases hcell : cellAt t.cols r "Player_Name" with
      | str s =>
        have hsmem : s ∈ all_players t := by
          unfold all_players
          rw [mem_sortStrings, List.mem_dedup]
          unfold playerNames
          apply List.mem_filterMap.mpr
          refine ⟨cellAt t.cols r "Player_Name", ?_, by rw [hcell]⟩
          exact List.mem_map.mpr ⟨r, hr, rfl⟩
        simp [hsmem]
      | missing => rw [hcell] at hp; simp [isStrCell] at hp
      | num q => rw [hcell] at hp; simp [isStrCell] at hp
  rw [hfix]

theorem filter_roundtrip_spot :
    filtered_df tMixed (min_year tMixed) (max_year tMixed) (all_players tMixed)
      = Except.ok tMixed :=
  filter_roundtrip tMixed (by decide) (by decide) (by decide) (by decide)

/-- Claim C4: filtering is monotone in its selection arguments: raising
the lower temporal bound, lowering the upper temporal bound, or shrinking
the selected-entities set never increases the filtered row count. -/
theorem filter_monotone (t : Table) (lo hi lo2 hi2 : ℚ) (sel sel2 : List String)
    (hlo : lo ≤ lo2) (hhi : hi2 ≤ hi) (hsel : ∀ s ∈ sel2, s ∈ sel) :
    rowCount (filtered_df t lo2 hi2 sel2) ≤ rowCount (filtered_df t lo hi sel) := by
  unfold filtered_df
  by_cases hP : "Player_Name" ∈ t.cols
  · rw [if_pos hP, if_pos hP]
    by_cases hY : "Year" ∈ t.cols
    · rw [if_pos hY, if_pos hY]
      simp only [rowCount]
      apply length_filter_mono
      intro r hr h2
      rw [Bool.and_eq_true] at h2 ⊢
      obtain ⟨hy2, hp2⟩ := h2
      constructor
      · unfold yearOK at hy2 ⊢
        cases hcell : cellAt t.cols r "Year" with
        | num q =>
          rw [hcell] at hy2
          rw [Bool.and_eq_true, decide_eq_true_eq, decide_eq_true_eq] at hy2 ⊢
          exact ⟨le_trans hlo hy2.1, le_trans hy2.2 hhi⟩
        | missing => rw [hcell] at hy2; exact absurd hy2 (by simp)
        | str s => rw [hcell] at hy2; exact absurd hy2 (by simp)
      · unfold playerIn at hp2 ⊢
        cases hcell : cellAt t.cols r "Player_Name" with
        | str s =>
          rw [hcell] at hp2
          have hmem : s ∈ sel2 := by simpa using hp2
          simpa using hsel s hmem
        | missing => rw [hcell] at hp2; exact absurd hp2 (by simp)
        | num q => rw [hcell] at hp2; exact absurd hp2 (by simp)
    · rw [if_neg hY, if_neg hY]
      simp only [rowCount]
      apply length_filter_mono
      intro r hr h2
      unfold playerIn at h2 ⊢
      cases hcell : cellAt t.cols r "Player_Name" with
      | str s =>
        rw [hcell] at h2
        have hmem : s ∈ sel2 := by simpa using h2
        simpa using hsel s hmem
      | missing => rw [hcell] at h2; exact absurd h2 (by simp)
      | num q => rw [hcell] at h2; exact absurd h2 (by simp)
  · rw [if_neg hP, if_neg hP]

theorem filter_monotone_spot :
    rowCount (filtered_df tMixed 2020 2020 ["A"]) ≤
      rowCount (filtered_df tMixed 2020 2021 ["A", "B"]) :=
  filter_monotone tMixed 2020 2021 2020 2020 ["A", "B"] ["A"]
    (by decide) (by decide) (by decide)

/-- Claim C5: filtering with an empty entity selection returns a zero-row
table and no error, and the Aggregator on a zero-row table returns zero
aggregate rows and no error, for every reduction method. -/
theorem empty_selection_behavior (t tz : Table) (lo hi : ℚ)
    (hP : "Player_Name" ∈ t.cols) (hz : tz.rows = [])
    (metrics : List String) (m : Method) :
    filtered_df t lo hi [] = Except.ok (Table.mk t.cols []) ∧
    comparison_df tz metrics m = [] := by
  constructor
  · have hnone : ∀ r ∈ t.rows,
        (playerIn t.cols r [] = false) := by
      intro r hr
      unfold playerIn
      cases cellAt t.cols r "Player_Name" <;> rfl
    unfold filtered_df
    rw [if_pos hP]
    by_cases hY : "Year" ∈ t.cols
    · rw [if_pos hY]
      have hnil : t.rows.filter
          (fun r => yearOK t.cols r lo hi && playerIn t.cols r []) = [] := by
        apply List.filter_eq_nil_iff.mpr
        intro r hr
        rw [hnone r hr, Bool.and_false]
        exact Bool.false_ne_true
      rw [hnil]
    · rw [if_neg hY]
      have hnil : t.rows.filter (fun r => playerIn t.cols r []) = [] := by
        apply List.filter_eq_nil_iff.mpr
        intro r hr
        rw [hnone r hr]
        exact Bool.false_ne_true
      rw [hnil]
  · unfold comparison_df groupKeys playerNames colCells
    rw [hz]
    rfl

theorem empty_selection_behavior_spot :
    filtered_df tMixed 2020 2021 [] = Except.ok (Table.mk tMixed.cols []) ∧
    comparison_df tNoRows ["M"] Method.mean = [] :=
  empty_selection_behavior tMixed tNoRows 2020 2021 (by decide) (by decide)
    ["M"] Method.mean

/-- Claim C6: a column is listed by the Metric Catalog exactly when it is a
column of the table and every non-missing cell of it is numeric. -/
theorem metric_catalog_iff (t : Table) (c : String) :
    c ∈ available_metrics t ↔
      c ∈ t.cols ∧ ∀ cl ∈ colCells t c,
        cl = Cell.missing ∨ ∃ q, cl = Cell.num q := by
  unfold available_metrics
  rw [List.mem_filter]
  apply and_congr_right
  intro _
  unfold numericDtype
  rw [List.all_eq_true]
  constructor
  · intro hall cl hcl
    have hthis := hall cl hcl
    cases cl with
    | missing => exact Or.inl rfl
    | num q => exact Or.inr ⟨q, rfl⟩
    | str s => simp [isNumericDtypeCell] at hthis
  · intro hall cl hcl
    rcases hall cl hcl with h | ⟨q, h⟩ <;> subst h <;> rfl

theorem metric_catalog_iff_spot :
    "M" ∈ available_metrics tMixed :=
  (metric_catalog_iff tMixed "M").mpr ⟨by decide, by
    have hcol : colCells tMixed "M" = [Cell.num 1, Cell.num 2] := by decide
    rw [hcol]
    intro cl hcl
    rcases List.mem_cons.mp hcl with h | h
    · exact Or.inr ⟨1, h⟩
    · rcases List.mem_cons.mp h with h2 | h2
      · exact Or.inr ⟨2, h2⟩
      · cases h2⟩

end CricketApp
